import Mathlib

/-!
Verification development for the PowerPointGenerator repository.

The definitions below are a shallow embedding of the Python sources
`image_uploader.py` (class ImageIdentifier) and `ppt_generator.py`
(class PowerPointGenerator).  Strings are modelled as `List Char` /
`String`, machine floats as `ℚ` (all float computations in the source
are ratios, products and comparisons, which are exact here), and the
regular-expression searches of the source are translated pattern by
pattern, reproducing Python `re.search` semantics (leftmost match,
greedy / lazy quantifiers with backtracking, `$` also matching before a
final newline) for the concrete patterns that appear in the code.
-/

namespace PPTGen

/-! ### Character classes (Python `re` classes, ASCII range) -/

/-- Python regex class `\s` (ASCII whitespace). -/
def isSpaceC (c : Char) : Bool :=
  c == ' ' || c == '\t' || c == '\n' || c == '\r' ||
  c == Char.ofNat 11 || c == Char.ofNat 12

/-- The separator class `[\s_\-]` used throughout the patterns. -/
def isSepC (c : Char) : Bool :=
  isSpaceC c || c == '_' || c == '-'

/-- Python regex class `\d` (ASCII). -/
def isDigitC (c : Char) : Bool := c.isDigit

/-- The class `[a-z]` under `re.IGNORECASE`, i.e. ASCII letters. -/
def isAlphaC (c : Char) : Bool := c.isAlpha

/-- Python regex class `\w` (ASCII): letters, digits and underscore. -/
def isWordC (c : Char) : Bool := c.isAlphanum || c == '_'

/-- The suffix class `[\s_\-\(\d]` of the identifier patterns. -/
def isCls1 (c : Char) : Bool := isSepC c || c == '(' || isDigitC c

/-! ### Generic scanning helpers -/

/-- Length of the maximal run of characters satisfying `p` starting at
index `i` of `s` (how a greedy `p*` / `p+` consumes). -/
def runLen (p : Char → Bool) (s : List Char) (i : ℕ) : ℕ :=
  ((s.drop i).takeWhile p).length

/-- Case-insensitive literal match of `pat` at index `i` of `s`
(an escaped identifier under `re.IGNORECASE`). -/
def litAt (pat : List Char) (s : List Char) (i : ℕ) : Bool :=
  ((s.drop i).take pat.length).map Char.toLower == pat.map Char.toLower

/-- Python `$` (without `re.MULTILINE`): end of string, or just before a
final newline. -/
def dollarAt (s : List Char) (j : ℕ) : Bool :=
  j == s.length || (j + 1 == s.length && s.getD j ' ' == '\n')

/-- `\s*$` succeeding at position `j`: everything from `j` on is
whitespace. -/
def tailSpacesOnly (s : List Char) (j : ℕ) : Bool :=
  (s.drop j).all isSpaceC

/-- `(?:\s|$)` at position `j`. -/
def spaceOrDollar (s : List Char) (j : ℕ) : Bool :=
  (j < s.length && isSpaceC (s.getD j ' ')) || dollarAt s j

/-- `re.search`: try the match at positions `0, 1, …, n-1` and return
the first success (leftmost match). -/
def scanFirst (n : ℕ) (f : ℕ → Option α) : Option α :=
  (List.range n).findSome? f

/-- Python `str.strip()`: drop whitespace from both ends. -/
def pstrip (l : List Char) : List Char :=
  ((l.dropWhile isSpaceC).reverse.dropWhile isSpaceC).reverse

/-- Python `str.zfill(4)` on a digit string: left-pad with `'0'` to
width 4 (longer strings are unchanged). -/
def zfill4 (g : List Char) : String :=
  String.mk (List.replicate (4 - g.length) '0' ++ g)

/-- `os.path.splitext(filename)[0]`: drop the extension starting at the
last dot, provided some non-dot character precedes that dot. -/
def stripExt (l : List Char) : List Char :=
  let k := (l.reverse.takeWhile (· != '.')).length
  if k == l.length then l
  else
    let dotIdx := l.length - k - 1
    if (l.take dotIdx).any (· != '.') then l.take dotIdx else l

/-! ### Identifier taxonomy (`ImageIdentifier` class constants) -/

def GROUPABLE_IDENTIFIERS : List String :=
  ["UD", "LD", "MD", "UVD", "PDBSE", "PDBSE1", "BSE", "SE", "ABF", "ADF"]

def NON_GROUPABLE_IDENTIFIERS : List String :=
  ["Spectrum", "Spectra", "Map", "Maps", "Electron Image"]

def MAP_LIKE_IDENTIFIERS : List String := ["Map", "Maps", "Electron Image"]

def SPECTRUM_IDENTIFIERS : List String := ["Spectrum", "Spectra"]

def ALL_IDENTIFIERS : List String :=
  GROUPABLE_IDENTIFIERS ++ NON_GROUPABLE_IDENTIFIERS

/-- `sorted(ALL_IDENTIFIERS, key=len, reverse=True)`: Python's stable
sort by length, longest first (ties keep the `ALL_IDENTIFIERS` order). -/
def sortedIdentifiers : List String :=
  ["Electron Image", "Spectrum", "Spectra", "PDBSE1", "PDBSE", "Maps",
   "UVD", "BSE", "ABF", "ADF", "Map", "UD", "LD", "MD", "SE"]

/-! ### The identifier search pattern

`(?:^|[\s_\-])(ID)(?:[\s_\-\(\d]|[a-z]+\d*|$)` with `re.IGNORECASE`. -/

/-- End position of the suffix group `(?:[\s_\-\(\d]|[a-z]+\d*|$)` when
it is tried at position `j` (alternatives in Python's left-to-right
order; `[a-z]+\d*` is greedy). `none` if no alternative matches. -/
def sfxEnd (s : List Char) (j : ℕ) : Option ℕ :=
  if j < s.length && isCls1 (s.getD j ' ') then some (j + 1)
  else if j < s.length && isAlphaC (s.getD j ' ') then
    let a := runLen isAlphaC s j
    some (j + a + runLen isDigitC s (j + a))
  else if dollarAt s j then some j else none

/-- One attempt of the identifier pattern at start position `i`; on
success returns the index where the identifier itself (group 1) starts.
The `^` alternative is tried before the `[\s_\-]` alternative. -/
def matchIdAt (idc : List Char) (s : List Char) (i : ℕ) : Option ℕ :=
  if i == 0 && litAt idc s 0 && (sfxEnd s idc.length).isSome then some 0
  else if i < s.length && isSepC (s.getD i ' ') && litAt idc s (i + 1) &&
      (sfxEnd s (i + 1 + idc.length)).isSome then some (i + 1)
  else none

/-- `re.search` of the identifier pattern: leftmost match. -/
def idSearch (idc : List Char) (s : List Char) : Option ℕ :=
  scanFirst (s.length + 1) (matchIdAt idc s)

/-- The `for identifier in sorted_identifiers` loop: first identifier
(longest first) whose pattern matches, with the group-1 position. -/
def findFirstIdentifier (s : List Char) : Option (String × ℕ) :=
  sortedIdentifiers.findSome? fun id => (idSearch id.data s).map fun p => (id, p)

/-! ### Groupable-number patterns -/

/-- `(\d{4})[\s\-_]+\d*[\s\-_]*ID(?:[\s_\-\(\d]|[a-z]+\d*|$)` tried at
start `i`.  After the four digits, the greedy runs `[\s\-_]+`, `\d*`,
`[\s\-_]*` admit exactly one viable decomposition (the identifier
begins with a letter, so backtracking into the separator/digit noise
cannot produce another identifier position).  Returns
`(group 1, stripped group 0)`. -/
def matchNumAAt (idc : List Char) (s : List Char) (i : ℕ) :
    Option (List Char × List Char) :=
  let four := (s.drop i).take 4
  if four.length == 4 && four.all isDigitC then
    let b1 := runLen isSepC s (i + 4)
    if b1 == 0 then none
    else
      let d := runLen isDigitC s (i + 4 + b1)
      let b2 := runLen isSepC s (i + 4 + b1 + d)
      let q := i + 4 + b1 + d + b2
      if litAt idc s q then
        match sfxEnd s (q + idc.length) with
        | some e => some (four, pstrip ((s.drop i).take (e - i)))
        | none => none
      else none
  else none

def numPatternA (idc : List Char) (s : List Char) :
    Option (List Char × List Char) :=
  scanFirst (s.length + 1) (matchNumAAt idc s)

/-- `(\d+)[\s\-_]+ID(?:[\s_\-\(\d]|[a-z]+\d*|$)` tried at start `i`
(greedy `\d+` and `[\s\-_]+`; as above the decomposition is unique).
Returns `(group 1, stripped group 0)`. -/
def matchNumBAt (idc : List Char) (s : List Char) (i : ℕ) :
    Option (List Char × List Char) :=
  let d := runLen isDigitC s i
  if d == 0 then none
  else
    let b := runLen isSepC s (i + d)
    if b == 0 then none
    else
      let q := i + d + b
      if litAt idc s q then
        match sfxEnd s (q + idc.length) with
        | some e => some ((s.drop i).take d, pstrip ((s.drop i).take (e - i)))
        | none => none
      else none

def numPatternB (idc : List Char) (s : List Char) :
    Option (List Char × List Char) :=
  scanFirst (s.length + 1) (matchNumBAt idc s)

/-- `ID[\s\-_]+(\d+)` tried at start `i`.  Returns
`(group 1, group 0)` (this one is not stripped in the source). -/
def matchNumCAt (idc : List Char) (s : List Char) (i : ℕ) :
    Option (List Char × List Char) :=
  if litAt idc s i then
    let b := runLen isSepC s (i + idc.length)
    if b == 0 then none
    else
      let d := runLen isDigitC s (i + idc.length + b)
      if d == 0 then none
      else
        some ((s.drop (i + idc.length + b)).take d,
              (s.drop i).take (idc.length + b + d))
  else none

def numPatternC (idc : List Char) (s : List Char) :
    Option (List Char × List Char) :=
  scanFirst (s.length + 1) (matchNumCAt idc s)

/-! ### Map / Electron-Image after-identifier pattern

`ID(?:\s+\w+)*?[_\s\-]+(\d+)(?:_\d+)?(?:\s|$)` with `re.IGNORECASE`. -/

/-- The tail `[_\s\-]+(\d+)(?:_\d+)?(?:\s|$)` tried at position `j`:
greedy separator and digit runs, then the optional `_\d+` (taken
greedily, dropped on backtracking).  Returns group 1. -/
def tryTailMap (s : List Char) (j : ℕ) : Option (List Char) :=
  let b := runLen isSepC s j
  if b == 0 then none
  else
    let d := runLen isDigitC s (j + b)
    if d == 0 then none
    else
      let p := j + b + d
      let g := (s.drop (j + b)).take d
      let withOpt : Option ℕ :=
        if p < s.length && s.getD p ' ' == '_' then
          let d2 := runLen isDigitC s (p + 1)
          if d2 == 0 then none else some (p + 1 + d2)
        else none
      match withOpt with
      | some p2 =>
        if spaceOrDollar s p2 || spaceOrDollar s p then some g else none
      | none => if spaceOrDollar s p then some g else none

/-- Backtracking over the greedy `\w+` length `w` (from maximal down to
1) inside one `(?:\s+\w+)` group: first `w` whose continuation `k`
succeeds. -/
def tryWs (k : ℕ → Option (List Char)) : ℕ → Option (List Char)
  | 0 => none
  | w + 1 =>
    match k (w + 1) with
    | some g => some g
    | none => tryWs k w

/-- The lazy star `(?:\s+\w+)*?` followed by the tail, from position
`j`: try the tail first (lazy), else consume one `\s+\w+` group (greedy
`\s+`, then `\w+` from its maximal length down) and recurse.  Each star
iteration consumes at least two characters, so with
`fuel = s.length + 1` the fuel never runs out. -/
def afterLoop (s : List Char) : ℕ → ℕ → Option (List Char)
  | 0, _ => none
  | fuel + 1, j =>
    match tryTailMap s j with
    | some g => some g
    | none =>
      let a := runLen isSpaceC s j
      if a == 0 then none
      else tryWs (fun w => afterLoop s fuel (j + a + w)) (runLen isWordC s (j + a))

/-- `re.search` of the after-identifier pattern: leftmost occurrence of
the identifier from which the remainder matches. -/
def afterSearch (idc : List Char) (s : List Char) : Option (List Char) :=
  scanFirst (s.length + 1) fun i =>
    if litAt idc s i then afterLoop s (s.length + 1) (i + idc.length) else none

/-! ### Fallback and spectrum trailing-number patterns -/

/-- `[_\s\-](\d+)(?:_\d+)?\s*$` tried at start `i`. -/
def matchFallbackAt (s : List Char) (i : ℕ) : Option (List Char) :=
  if i < s.length && isSepC (s.getD i ' ') then
    let d := runLen isDigitC s (i + 1)
    if d == 0 then none
    else
      let p := i + 1 + d
      let g := (s.drop (i + 1)).take d
      let withOpt : Option ℕ :=
        if p < s.length && s.getD p ' ' == '_' then
          let d2 := runLen isDigitC s (p + 1)
          if d2 == 0 then none else some (p + 1 + d2)
        else none
      match withOpt with
      | some p2 =>
        if tailSpacesOnly s p2 || tailSpacesOnly s p then some g else none
      | none => if tailSpacesOnly s p then some g else none
  else none

def fallbackSearch (s : List Char) : Option (List Char) :=
  scanFirst (s.length + 1) (matchFallbackAt s)

/-- The core `(\d+)(?:_\d+)?\s*$` of the spectrum pattern at `k`. -/
def trailingCore (s : List Char) (k : ℕ) : Option (List Char) :=
  let d := runLen isDigitC s k
  if d == 0 then none
  else
    let p := k + d
    let g := (s.drop k).take d
    let withOpt : Option ℕ :=
      if p < s.length && s.getD p ' ' == '_' then
        let d2 := runLen isDigitC s (p + 1)
        if d2 == 0 then none else some (p + 1 + d2)
      else none
    match withOpt with
    | some p2 =>
      if tailSpacesOnly s p2 || tailSpacesOnly s p then some g else none
    | none => if tailSpacesOnly s p then some g else none

/-- `[_\s\-]?(\d+)(?:_\d+)?\s*$` tried at start `i` (the optional
separator is taken greedily first). -/
def matchTrailingAt (s : List Char) (i : ℕ) : Option (List Char) :=
  if i < s.length && isSepC (s.getD i ' ') then
    match trailingCore s (i + 1) with
    | some g => some g
    | none => trailingCore s i
  else trailingCore s i

def trailingSearch (s : List Char) : Option (List Char) :=
  scanFirst (s.length + 1) (matchTrailingAt s)

/-! ### `ImageIdentifier.extract_identifier_and_number` -/

/-- The text of the identifier as it occurs in the filename
(`match.group(1)`, original casing). -/
def foundText (s : List Char) (pos len : ℕ) : String :=
  String.mk ((s.drop pos).take len)

/-- Shallow embedding of
`ImageIdentifier.extract_identifier_and_number(filename)`:
returns `(numerical prefix, identifier, full match)`. -/
def extract_identifier_and_number (filename : String) :
    Option String × Option String × Option String :=
  let s := stripExt filename.data
  match findFirstIdentifier s with
  | none => (none, none, none)
  | some (id, pos) =>
    let found := foundText s pos id.data.length
    if id ∈ GROUPABLE_IDENTIFIERS then
      match numPatternA id.data s with
      | some (g, full) => (some (String.mk g), some id, some (String.mk full))
      | none =>
        match numPatternB id.data s with
        | some (g, full) => (some (zfill4 g), some id, some (String.mk full))
        | none =>
          match numPatternC id.data s with
          | some (g, full) => (some (zfill4 g), some id, some (String.mk full))
          | none => (none, some id, some found)
    else if id ∈ MAP_LIKE_IDENTIFIERS then
      match afterSearch id.data s with
      | some g => (some (zfill4 g), some id, some found)
      | none =>
        match fallbackSearch s with
        | some g => (some (zfill4 g), some id, some found)
        | none => (none, some id, some found)
    else if id ∈ SPECTRUM_IDENTIFIERS then
      match trailingSearch s with
      | some g => (some (zfill4 g), some id, some found)
      | none => (none, some id, some found)
    else (none, some id, some found)

/-! ### Decimal representation (Python `int(s)` and `str(n)`) -/

/-- The decimal digit character for `m < 10`. -/
def digitChar (m : ℕ) : Char := Char.ofNat (48 + m)

/-- Numeric value of a digit character. -/
def digitVal (c : Char) : ℕ := c.toNat - 48

/-- Python `int` applied to a digit string (most significant first). -/
def digitsToNat : List Char → ℕ
  | [] => 0
  | c :: cs => digitVal c * 10 ^ cs.length + digitsToNat cs

/-- Decimal digits of `n`, most significant first, with enough fuel
(`n < fuel` always suffices). -/
def natReprAux : ℕ → ℕ → List Char
  | 0, _ => []
  | fuel + 1, n =>
    if n < 10 then [digitChar n]
    else natReprAux fuel (n / 10) ++ [digitChar (n % 10)]

/-- Python `str(n)` / an f-string `f"...{n}"` for a natural number. -/
def natRepr (n : ℕ) : List Char := natReprAux (n + 1) n

/-! ### `ImageIdentifier.format_group_label` -/

/-- Python `s.isdigit()` for ASCII strings: nonempty and all digits. -/
def pyIsDigit (l : List Char) : Bool := !l.isEmpty && l.all isDigitC

/-- Shallow embedding of
`ImageIdentifier.format_group_label(numerical_prefix, identifier)`.
The first argument models the `numerical_prefix` metadata value
(`none`/empty string are both falsy in Python). -/
def format_group_label (pre : Option String) (id : Option String) : String :=
  match pre with
  | none => ""
  | some p =>
    if p = "" then ""
    else if pyIsDigit p.data && p.data.length == 4 then
      if id = some "Spectrum" ∨ id = some "Spectra" then
        "SPEC" ++ String.mk (natRepr (digitsToNat p.data))
      else if id = some "Map" ∨ id = some "Maps" ∨ id = some "Electron Image" then
        "MAP" ++ String.mk (natRepr (digitsToNat p.data))
      else p
    else p

/-! ### Catalogue entries and `ImageIdentifier.get_sort_key` -/

/-- View of an indexed image: the fields of the index entry that the
core reads (`metadata['identifier']`, `metadata['numerical_prefix']`,
`filename`, pixel `width`/`height`). -/
structure Entry where
  filename : String
  identifier : Option String
  groupNum : Option String
  width : ℚ
  height : ℚ
deriving DecidableEq, Repr

/-- The sorting category of `get_sort_key`: 0 groupable, 1 Map-like,
2 Spectrum-like, 3 ungrouped/unknown. -/
def category (id : Option String) : ℕ :=
  match id with
  | some s =>
    if s ∈ GROUPABLE_IDENTIFIERS then 0
    else if s ∈ MAP_LIKE_IDENTIFIERS then 1
    else if s ∈ SPECTRUM_IDENTIFIERS then 2
    else 3
  | none => 3

/-- Position of `x` in `l`, if present. -/
def posOf (x : String) : List String → Option ℕ
  | [] => none
  | y :: ys => if y = x then some 0 else (posOf x ys).map (· + 1)

/-- The `identifier_priority` lookup of `get_sort_key`: groupable
identifiers by position, non-groupable by 100 + position, default 999. -/
def identifierPriority (id : Option String) : ℕ :=
  match id with
  | some s =>
    match posOf s NON_GROUPABLE_IDENTIFIERS with
    | some k => 100 + k
    | none =>
      match posOf s GROUPABLE_IDENTIFIERS with
      | some k => k
      | none => 999
  | none => 999

/-- Shallow embedding of `ImageIdentifier.get_sort_key(img_info)`:
the tuple `(category, numerical prefix or sentinel, identifier
priority, lowercased filename)`. -/
def get_sort_key (e : Entry) : ℕ × String × ℕ × String :=
  (category e.identifier,
   (match e.groupNum with
    | some p => if p = "" then "zzzzz" else p
    | none => "zzzzz"),
   identifierPriority e.identifier,
   e.filename.toLower)

/-- Python's lexicographic comparison of the 4-tuples produced by
`get_sort_key` (string comparison is code-point lexicographic, as in
Lean's `String` order). -/
def keyLt (a b : ℕ × String × ℕ × String) : Prop :=
  a.1 < b.1 ∨ (a.1 = b.1 ∧
    (a.2.1 < b.2.1 ∨ (a.2.1 = b.2.1 ∧
      (a.2.2.1 < b.2.2.1 ∨ (a.2.2.1 = b.2.2.1 ∧ a.2.2.2 < b.2.2.2)))))

/-! ### `PowerPointGenerator` slide geometry

Inches are modelled by `ℚ` (the EMU scaling of `pptx.util.Inches` is
linear and cancels from every ratio and comparison). -/

/-- `self.slide_width = Inches(10)`. -/
def slideWidth : ℚ := 10
/-- `self.slide_height = Inches(7.5)`. -/
def slideHeight : ℚ := 15 / 2
/-- `self.margin_top = Inches(0.75)`. -/
def marginTop : ℚ := 3 / 4
/-- `self.margin_bottom = Inches(0.5)`. -/
def marginBottom : ℚ := 1 / 2
/-- `self.margin_left = Inches(0.5)`. -/
def marginLeft : ℚ := 1 / 2
/-- `self.margin_right = Inches(0.5)`. -/
def marginRight : ℚ := 1 / 2
/-- `self.label_height = Inches(0.4)`. -/
def labelHeight : ℚ := 2 / 5
/-- `self.label_spacing = Inches(0.1)`. -/
def labelSpacing : ℚ := 1 / 10
/-- `self.available_width`. -/
def availableWidth : ℚ := slideWidth - marginLeft - marginRight
/-- `self.available_height`. -/
def availableHeight : ℚ := slideHeight - marginTop - marginBottom

/-- Upward scan for the least `k` (starting from the given `k`, with
enough fuel) such that `n ≤ k * k`. -/
def csqrtAux (n : ℕ) : ℕ → ℕ → ℕ
  | 0, k => k
  | fuel + 1, k => if n ≤ k * k then k else csqrtAux n fuel (k + 1)

/-- `ceil(sqrt n)` over the naturals — the least `k` with `n ≤ k * k` —
which is the exact value of `math.ceil(math.sqrt(n))`. -/
def csqrt (n : ℕ) : ℕ := csqrtAux n n 0

/-- `ceil(a / b)` over the naturals (the exact value of
`math.ceil(a / b)` for positive `b`). -/
def cdiv (a b : ℕ) : ℕ := (a + b - 1) / b

/-- Shallow embedding of
`PowerPointGenerator.calculate_grid_layout(num_images)`:
returns `(rows, cols)`. -/
def calculate_grid_layout (n : ℕ) : ℕ × ℕ :=
  if n = 0 then (0, 0)
  else if n = 1 then (1, 1)
  else if n = 2 then (1, 2)
  else if n ≤ 4 then (2, 2)
  else if n ≤ 6 then (2, 3)
  else if n ≤ 9 then (3, 3)
  else if n ≤ 12 then (3, 4)
  else if n ≤ 16 then (4, 4)
  else if n ≤ 20 then (4, 5)
  else
    let cols := csqrt n
    (cdiv n cols, cols)

/-- The cell-fitting computation in the body of
`calculate_image_dimensions`, with the cell and label measurements as
parameters: height-constrained branch when
`cell_width / cell_height > aspect ratio`, otherwise width-fit at 95%
re-clamped to the reserved height.  Returns `(img_width, img_height)`. -/
def fitDims (cellW cellH labelH labelGap ar : ℚ) : ℚ × ℚ :=
  if cellW / cellH > ar then
    ((cellH - labelH - labelGap) * ar, cellH - labelH - labelGap)
  else
    let w := cellW * (95 / 100)
    let h := w / ar
    let maxH := cellH - labelH - labelGap
    if h > maxH then (maxH * ar, maxH) else (w, h)

/-- Shallow embedding of
`PowerPointGenerator.calculate_image_dimensions(rows, cols,
image_aspect_ratio)`: cell width and height are derived from the
instance constants (the cell height already has `label_height +
label_spacing` per row subtracted), then fitted via `fitDims`. -/
def calculate_image_dimensions (rows cols : ℕ) (ar : ℚ) : ℚ × ℚ :=
  let cellW := availableWidth / (cols : ℚ)
  let cellH := (availableHeight - (labelHeight + labelSpacing) * (rows : ℚ)) / (rows : ℚ)
  fitDims cellW cellH labelHeight labelSpacing ar

/-- The aspect-ratio guard used by `add_standard_slide`,
`add_visual_custom_slide` and the left (non-spectrum) column of
`add_mixed_slide`: `w / h if h > 0 else 1.0`. -/
def standardAspect (w h : ℚ) : ℚ := if h > 0 then w / h else 1

/-- The aspect-ratio guard used by `add_spectrum_slide` and the right
(spectrum) column of `add_mixed_slide`: `w / h if h > 0 else 4.0`. -/
def spectrumAspect (w h : ℚ) : ℚ := if h > 0 then w / h else 4

/-- `fitDims` with Python's fallible divisions made explicit: each
`if d = 0 then none` marks a division whose zero divisor raises
`ZeroDivisionError` in the source, in evaluation order — the branch
condition divides by `cell_height`, the width-constrained branch
divides by the aspect ratio. -/
def fitDimsChecked (cellW cellH labelH labelGap ar : ℚ) : Option (ℚ × ℚ) :=
  if cellH = 0 then none
  else if cellW / cellH > ar then
    some ((cellH - labelH - labelGap) * ar, cellH - labelH - labelGap)
  else if ar = 0 then none
  else
    let w := cellW * (95 / 100)
    let h := w / ar
    let maxH := cellH - labelH - labelGap
    if h > maxH then some (maxH * ar, maxH) else some (w, h)

/-- Image dimensions for one horizontal slice of `add_spectrum_slide`
(`num_spectra` slices per slide): width-fit to 95% of the available
width via the unguarded division
`img_height = img_width / img_aspect_ratio`, re-clamped to the slice
height net of the label.  Each `if d = 0 then none` marks a division
whose zero divisor raises `ZeroDivisionError` in the source. -/
def spectrumSliceDims (numSpectra : ℕ) (w h : ℚ) : Option (ℚ × ℚ) :=
  let ar := spectrumAspect w h
  if (numSpectra : ℚ) = 0 then none
  else
    let sliceH := availableHeight / (numSpectra : ℚ)
    let availSliceH := sliceH - labelHeight - labelSpacing
    let iw := availableWidth * (95 / 100)
    if ar = 0 then none
    else
      let ih := iw / ar
      if ih > availSliceH then some (availSliceH * ar, availSliceH)
      else some (iw, ih)

/-- Image dimensions for one left-column (non-spectrum) slice of
`add_mixed_slide`: width-fit to 90% of the left third via the
unguarded division `img_height = img_width / img_aspect_ratio`,
re-clamped to the slice height net of the label.  Each
`if d = 0 then none` marks a division whose zero divisor raises
`ZeroDivisionError` in the source. -/
def mixedLeftDims (numOther : ℕ) (w h : ℚ) : Option (ℚ × ℚ) :=
  let ar := standardAspect w h
  let leftWidth := availableWidth / 3
  if (numOther : ℚ) = 0 then none
  else
    let sliceH := availableHeight / (numOther : ℚ)
    let availSliceH := sliceH - labelHeight - labelSpacing
    let iw := leftWidth * (9 / 10)
    if ar = 0 then none
    else
      let ih := iw / ar
      if ih > availSliceH then some (availSliceH * ar, availSliceH)
      else some (iw, ih)

/-- Image dimensions for one right-column (spectrum) slice of
`add_mixed_slide`: width-fit to 95% of the right two thirds via the
unguarded division `img_height = img_width / img_aspect_ratio`,
re-clamped to the slice height net of the label.  Each
`if d = 0 then none` marks a division whose zero divisor raises
`ZeroDivisionError` in the source. -/
def mixedRightDims (numSpectra : ℕ) (w h : ℚ) : Option (ℚ × ℚ) :=
  let ar := spectrumAspect w h
  let rightWidth := availableWidth * 2 / 3
  if (numSpectra : ℚ) = 0 then none
  else
    let sliceH := availableHeight / (numSpectra : ℚ)
    let availSliceH := sliceH - labelHeight - labelSpacing
    let iw := rightWidth * (95 / 100)
    if ar = 0 then none
    else
      let ih := iw / ar
      if ih > availSliceH then some (availSliceH * ar, availSliceH)
      else some (iw, ih)

/-! ### `PowerPointGenerator.add_mixed_slide` batching -/

/-- The batching of `add_mixed_slide`: slide `k` holds
`other_images[2k : 2k+2]` on the left and `spectrum_images[3k : 3k+3]`
on the right; the number of slides is
`max(ceil(|spectrum| / 3), ceil(|other| / 2))`. -/
def mixedUnits (spectrum other : List α) : List (List α × List α) :=
  let maxSlides := max (cdiv spectrum.length 3) (cdiv other.length 2)
  (List.range maxSlides).map fun k =>
    ((other.drop (2 * k)).take 2, (spectrum.drop (3 * k)).take 3)

/-! ### Layout profiles, `add_visual_custom_slide`, `add_group_slide` -/

/-- A user-drawn region of a visual layout profile. -/
structure Region where
  identifier : String
  x1 : ℚ
  y1 : ℚ
  x2 : ℚ
  y2 : ℚ
deriving DecidableEq, Repr

/-- A custom layout profile (`self.layout_profiles[group_label]`). -/
structure Profile where
  ptype : String
  regions : List Region
deriving DecidableEq, Repr

/-- Outcome of `add_visual_custom_slide`: either the fallback call to
`add_standard_slide`, or a visual slide listing, for each region kept,
the entries whose identifier matches it (regions with no match are
skipped by `continue`). -/
inductive VisualResult where
  | grid (images : List Entry)
  | visual (placed : List (Region × List Entry))
deriving DecidableEq, Repr

/-- Shallow embedding of
`PowerPointGenerator.add_visual_custom_slide(prs, label, images,
profile)` restricted to its placement logic. -/
def add_visual_custom_slide (images : List Entry) (regions : List Region) :
    VisualResult :=
  if regions.isEmpty then .grid images
  else
    .visual (regions.filterMap fun r =>
      let ms := images.filter fun e => e.identifier == some r.identifier
      if ms.isEmpty then none else some (r, ms))

/-- `identifier == 'Spectrum' or identifier in SPECTRUM_IDENTIFIERS`. -/
def isSpectrumLike (e : Entry) : Bool :=
  e.identifier == some "Spectrum" || e.identifier == some "Spectra"

/-- Which slide-composition branch `add_group_slide` dispatches to. -/
inductive Dispatch where
  | visual (res : VisualResult)
  | standard (images : List Entry)
  | spectrum (images : List Entry)
  | mixed (spectrum other : List Entry)
deriving DecidableEq, Repr

/-- The auto-detection tail of `add_group_slide`. -/
def autoDispatch (images : List Entry) : Dispatch :=
  let sp := images.filter isSpectrumLike
  let ot := images.filter fun e => !isSpectrumLike e
  if !sp.isEmpty && !ot.isEmpty then .mixed sp ot
  else if !sp.isEmpty then .spectrum sp
  else .standard images

/-- Shallow embedding of
`PowerPointGenerator.add_group_slide(prs, label, images)`: `none` when
`images` is empty (the method returns without adding a slide),
otherwise the branch taken, with the images handed to it. -/
def add_group_slide (images : List Entry) (profile : Option Profile) :
    Option Dispatch :=
  if images.isEmpty then none
  else some <|
    match profile with
    | some p =>
      if p.ptype = "visual" then .visual (add_visual_custom_slide images p.regions)
      else if p.ptype = "grid" then .standard images
      else if p.ptype = "horizontal" then .spectrum images
      else if p.ptype = "mixed" then
        let sp := images.filter isSpectrumLike
        let ot := images.filter fun e => !isSpectrumLike e
        let so : List Entry × List Entry :=
          if sp.isEmpty then (images.take 3, images.drop 3) else (sp, ot)
        let so : List Entry × List Entry :=
          if so.2.isEmpty && decide (images.length > 3) then
            (images.take (images.length - 2), images.drop (images.length - 2))
          else so
        .mixed so.1 so.2
      else autoDispatch images
    | none => autoDispatch images

/-! ### Grouping by formatted label (`generate_presentation`) -/

/-- Whether `generate_presentation` keeps an image: it skips entries
with a falsy `numerical_prefix`. -/
def isGrouped (e : Entry) : Bool :=
  match e.groupNum with
  | some p => !(p = "")
  | none => false

/-- The formatted group label of an entry, as used for the
`groups_dict` keys of `generate_presentation`. -/
def entryLabel (e : Entry) : String :=
  format_group_label e.groupNum e.identifier

/-- The members of the slide group with formatted label `lbl`
(`groups_dict[lbl]`, in catalogue order). -/
def groupMembers (images : List Entry) (lbl : String) : List Entry :=
  images.filter fun e => isGrouped e && entryLabel e == lbl

/-! ## Theorems -/

/-- Sanity check for the hard-coded `sortedIdentifiers`: it is a
permutation of `ALL_IDENTIFIERS`, weakly decreasing in length (as
produced by `sorted(..., key=len, reverse=True)`); equal-length ties
keep their `ALL_IDENTIFIERS` order, Python's sort being stable. -/
theorem sortedIdentifiers_sound :
    sortedIdentifiers.Perm ALL_IDENTIFIERS ∧
    sortedIdentifiers.Pairwise fun a b => b.length ≤ a.length :=
  ⟨by decide, by decide⟩

/-- C10: the group-label formatter is not injective — a custom
(non-4-digit) group label `"SPEC2"` under identifier `UD` and the
4-digit group `"0002"` under identifier `Spectrum` have distinct
metadata but format to the same label `"SPEC2"`, and the grouping of
`generate_presentation` (which keys `groups_dict` by formatted label)
puts both entries into the same slide group. -/
theorem c10_format_label_not_injective :
    (Entry.groupNum ⟨"custom_label.tif", some "UD", some "SPEC2", 1, 1⟩,
     Entry.identifier ⟨"custom_label.tif", some "UD", some "SPEC2", 1, 1⟩) ≠
      (Entry.groupNum ⟨"Spectrum 2.tiff", some "Spectrum", some "0002", 1, 1⟩,
       Entry.identifier ⟨"Spectrum 2.tiff", some "Spectrum", some "0002", 1, 1⟩) ∧
    entryLabel ⟨"custom_label.tif", some "UD", some "SPEC2", 1, 1⟩ = "SPEC2" ∧
    entryLabel ⟨"Spectrum 2.tiff", some "Spectrum", some "0002", 1, 1⟩ = "SPEC2" ∧
    groupMembers
        [⟨"custom_label.tif", some "UD", some "SPEC2", 1, 1⟩,
         ⟨"Spectrum 2.tiff", some "Spectrum", some "0002", 1, 1⟩] "SPEC2" =
      [⟨"custom_label.tif", some "UD", some "SPEC2", 1, 1⟩,
       ⟨"Spectrum 2.tiff", some "Spectrum", some "0002", 1, 1⟩] := by
  refine ⟨by decide, by decide, by decide, by decide⟩

/-- C7 (counterexample): the claim says every composition branch does
not raise and treats a degenerate source image as aspect ratio 1.0;
but a zero-height image gets aspect ratio 4.0 in the spectrum-slice
branches, and a zero-width image of height 100 makes the spectrum
slice computation divide its fitted width by aspect ratio 0.0 — a
`ZeroDivisionError` (`none`), raised before the branch's `try` block. -/
theorem c7_counterexample :
    ¬ spectrumAspect 100 0 = 1 ∧ spectrumSliceDims 1 0 100 = none := by
  constructor
  · norm_num [spectrumAspect]
  · norm_num [spectrumSliceDims, spectrumAspect]

/-- C7 (amended): a zero-height image never raises — the guard
`if h > 0` substitutes aspect ratio 1.0 in the grid, visual and
mixed-left branches and 4.0 in the spectrum-slice branches, and the
subsequent slice fits succeed; but a zero-width image with positive
height gets aspect ratio 0.0 (unguarded), and while the grid/visual
cell fit still does not raise (the height-constrained branch is taken
and emits a zero-width placement), the spectrum/horizontal slice
computation and both columns of the mixed branch divide the fitted
width by the aspect ratio and raise `ZeroDivisionError` before their
`try` blocks.  The checked cell fit agrees with `fitDims` whenever no
division fails. -/
theorem c7_degenerate_aspect :
    (∀ w h : ℚ, h ≤ 0 → standardAspect w h = 1 ∧ spectrumAspect w h = 4) ∧
    (∀ (n : ℕ) (w h : ℚ), 0 < n → h ≤ 0 →
      (spectrumSliceDims n w h).isSome ∧ (mixedLeftDims n w h).isSome ∧
      (mixedRightDims n w h).isSome) ∧
    (∀ (n : ℕ) (h : ℚ), 0 < h →
      spectrumSliceDims n 0 h = none ∧ mixedLeftDims n 0 h = none ∧
      mixedRightDims n 0 h = none) ∧
    (∀ cellW cellH labelH labelGap : ℚ, 0 < cellW → 0 < cellH →
      fitDimsChecked cellW cellH labelH labelGap 0 =
        some (0, cellH - labelH - labelGap)) ∧
    (∀ cellW cellH labelH labelGap ar : ℚ, cellH ≠ 0 → ar ≠ 0 →
      fitDimsChecked cellW cellH labelH labelGap ar =
        some (fitDims cellW cellH labelH labelGap ar)) := by
  have haspect : ∀ w h : ℚ, h ≤ 0 →
      standardAspect w h = 1 ∧ spectrumAspect w h = 4 := by
    intro w h hle
    rw [standardAspect, spectrumAspect, if_neg (by linarith),
      if_neg (by linarith)]
    exact ⟨rfl, rfl⟩
  refine ⟨haspect, ?_, ?_, ?_, ?_⟩
  · intro n w h hn hh
    have hn0 : ((n : ℚ)) ≠ 0 := Nat.cast_ne_zero.mpr (by omega)
    refine ⟨?_, ?_, ?_⟩
    · simp only [spectrumSliceDims, (haspect w h hh).2]
      rw [if_neg hn0, if_neg (by norm_num : (4 : ℚ) ≠ 0)]
      split_ifs <;> rfl
    · simp only [mixedLeftDims, (haspect w h hh).1]
      rw [if_neg hn0, if_neg (by norm_num : (1 : ℚ) ≠ 0)]
      split_ifs <;> rfl
    · simp only [mixedRightDims, (haspect w h hh).2]
      rw [if_neg hn0, if_neg (by norm_num : (4 : ℚ) ≠ 0)]
      split_ifs <;> rfl
  · intro n h hp
    have hsa : spectrumAspect 0 h = 0 := by
      rw [spectrumAspect, if_pos hp, zero_div]
    have hst : standardAspect 0 h = 0 := by
      rw [standardAspect, if_pos hp, zero_div]
    rcases eq_or_ne ((n : ℚ)) 0 with hn | hn
    · refine ⟨?_, ?_, ?_⟩
      · simp only [spectrumSliceDims, hsa]
        rw [if_pos hn]
      · simp only [mixedLeftDims, hst]
        rw [if_pos hn]
      · simp only [mixedRightDims, hsa]
        rw [if_pos hn]
    · refine ⟨?_, ?_, ?_⟩
      · simp only [spectrumSliceDims, hsa]
        rw [if_neg hn]
        simp
      · simp only [mixedLeftDims, hst]
        rw [if_neg hn]
        simp
      · simp only [mixedRightDims, hsa]
        rw [if_neg hn]
        simp
  · intro cellW cellH labelH labelGap hw hh
    have hch : cellH ≠ 0 := ne_of_gt hh
    have hr : cellW / cellH > 0 := div_pos hw hh
    rw [fitDimsChecked, if_neg hch, if_pos hr, mul_zero]
  · intro cellW cellH labelH labelGap ar hch har
    simp only [fitDimsChecked, fitDims]
    rw [if_neg hch]
    split_ifs <;> rfl

/-- C7 (witness): the amended statement at concrete degenerate images —
a zero-height image succeeds with ratio 4.0 in the spectrum slice, and
a zero-width image of positive height raises there. -/
theorem c7_witness :
    spectrumAspect 100 0 = 4 ∧
    (spectrumSliceDims 3 100 0).isSome ∧
    spectrumSliceDims 3 0 100 = none :=
  ⟨(c7_degenerate_aspect.1 100 0 le_rfl).2,
   (c7_degenerate_aspect.2.1 3 100 0 (by norm_num) le_rfl).1,
   (c7_degenerate_aspect.2.2.1 3 100 (by norm_num)).1⟩

/-- C6 (counterexample): the claim places the height-constrained branch
at `cell_w / (cell_h - label_h - label_gap) > aspect_ratio`; at
`cell_w = 1.02`, `cell_h = 1.1`, `label_h = label_gap = 0.05`,
`ar = 1` that condition holds (`1.02 / 1 > 1`) yet the code (whose
branch condition is `cell_w / cell_h > ar`) returns image height
`0.969 ≠ 1 = cell_h - label_h - label_gap`. -/
theorem c6_counterexample :
    (51 / 50 : ℚ) / ((11 / 10 : ℚ) - 1 / 20 - 1 / 20) > 1 ∧
    (fitDims (51 / 50) (11 / 10) (1 / 20) (1 / 20) 1).2 ≠
      (11 / 10 : ℚ) - 1 / 20 - 1 / 20 := by
  constructor
  · norm_num
  · norm_num [fitDims]

/-- C6 (amended): for positive aspect ratio, positive cell width and
label measurements with `label_h + label_gap < cell_h`, the fitted
dimensions satisfy `img_w / img_h = aspect_ratio` exactly (hence within
any relative tolerance) and `img_h ≤ cell_h - label_h - label_gap`; the
height-constrained branch is the one taken when
`cell_w / cell_h > aspect_ratio` (the code's condition — `cell_h` is
the per-cell height from which label space is subtracted once more),
and it sets `img_h = cell_h - label_h - label_gap`,
`img_w = img_h * aspect_ratio`. -/
theorem c6_fit_dimensions (cellW cellH labelH labelGap ar : ℚ)
    (har : 0 < ar) (hw : 0 < cellW)
    (hh : labelH + labelGap < cellH) :
    (fitDims cellW cellH labelH labelGap ar).1 /
        (fitDims cellW cellH labelH labelGap ar).2 = ar ∧
    |(fitDims cellW cellH labelH labelGap ar).1 /
        (fitDims cellW cellH labelH labelGap ar).2 - ar| ≤ ar / 1000000 ∧
    (fitDims cellW cellH labelH labelGap ar).2 ≤ cellH - labelH - labelGap ∧
    (cellW / cellH > ar →
      (fitDims cellW cellH labelH labelGap ar).2 = cellH - labelH - labelGap ∧
      (fitDims cellW cellH labelH labelGap ar).1 =
        (fitDims cellW cellH labelH labelGap ar).2 * ar) := by
  have hA : (0 : ℚ) < cellH - labelH - labelGap := by linarith
  have hA0 : cellH - labelH - labelGap ≠ 0 := ne_of_gt hA
  have har0 : ar ≠ 0 := ne_of_gt har
  have habs : ∀ x : ℚ, x / x = ar → |x / x - ar| ≤ ar / 1000000 := by
    intro x hx
    rw [hx, sub_self, abs_zero]
    positivity
  rw [fitDims]
  dsimp only
  split_ifs with h1 h2
  · have hr : (cellH - labelH - labelGap) * ar / (cellH - labelH - labelGap) = ar :=
      mul_div_cancel_left₀ ar hA0
    exact ⟨hr, by rw [hr, sub_self, abs_zero]; positivity, le_rfl,
      fun _ => ⟨rfl, rfl⟩⟩
  · have hr : (cellH - labelH - labelGap) * ar / (cellH - labelH - labelGap) = ar :=
      mul_div_cancel_left₀ ar hA0
    exact ⟨hr, by rw [hr, sub_self, abs_zero]; positivity, le_rfl,
      fun hc => absurd hc h1⟩
  · have hw95 : cellW * (95 / 100) ≠ 0 := by positivity
    have hr : cellW * (95 / 100) / (cellW * (95 / 100) / ar) = ar := by
      rw [div_div_eq_mul_div, mul_comm, mul_div_assoc,
        div_self hw95, mul_one]
    exact ⟨hr, by rw [hr, sub_self, abs_zero]; positivity, le_of_not_lt h2,
      fun hc => absurd hc h1⟩

/-- C6 (witness): the amended statement at a concrete width-constrained
configuration. -/
theorem c6_witness :
    (fitDims 1 2 (1 / 4) (1 / 4) 1).1 / (fitDims 1 2 (1 / 4) (1 / 4) 1).2 = 1 :=
  (c6_fit_dimensions 1 2 (1 / 4) (1 / 4) 1 (by norm_num) (by norm_num)
    (by norm_num)).1

/-- C8 (counterexample): a visual layout profile with one region whose
identifier (`Spectrum`) matches no entry of the group does not fall
back to the grid branch — the region is skipped and a visual slide with
no placed images is produced. -/
theorem c8_counterexample :
    add_visual_custom_slide [⟨"0001 UD.tif", some "UD", some "0001", 1, 1⟩]
        [⟨"Spectrum", 0, 0, 1, 1⟩] =
      VisualResult.visual [] ∧
    ¬ add_visual_custom_slide [⟨"0001 UD.tif", some "UD", some "0001", 1, 1⟩]
        [⟨"Spectrum", 0, 0, 1, 1⟩] =
      VisualResult.grid [⟨"0001 UD.tif", some "UD", some "0001", 1, 1⟩] := by
  refine ⟨by decide, by decide⟩

/-- C8 (amended): `add_visual_custom_slide` falls back to the grid
branch exactly when the profile has no regions; a region whose
identifier matches no entry is skipped individually, so a profile all
of whose regions are unmatched yields a visual slide with no placed
images rather than the grid fallback; and a requested horizontal
branch proceeds with the whole group even when it contains no
spectrum-like entry. -/
theorem c8_profile_fallback :
    (∀ images : List Entry, add_visual_custom_slide images [] = .grid images) ∧
    (∀ (images : List Entry) (regions : List Region), regions ≠ [] →
      (∀ r ∈ regions,
        images.filter (fun e => e.identifier == some r.identifier) = []) →
      add_visual_custom_slide images regions = .visual []) ∧
    (∀ (images : List Entry) (p : Profile), images ≠ [] →
      p.ptype = "horizontal" → (∀ e ∈ images, ¬ isSpectrumLike e) →
      add_group_slide images (some p) = some (.spectrum images)) := by
  refine ⟨fun images => by simp [add_visual_custom_slide], ?_, ?_⟩
  · intro images regions hne hall
    rw [add_visual_custom_slide, if_neg (by simpa using hne)]
    congr 1
    rw [List.filterMap_eq_nil_iff]
    intro r hr
    simp [hall r hr]
  · intro images p hne hpt _
    rw [add_group_slide, if_neg (by simpa using hne)]
    rw [hpt]
    rfl

/-- C8 (witness): the amended statement at concrete inputs — the empty
profile falls back to the grid branch. -/
theorem c8_witness :
    add_visual_custom_slide [⟨"a.tif", some "UD", some "0001", 1, 1⟩] [] =
      VisualResult.grid [⟨"a.tif", some "UD", some "0001", 1, 1⟩] :=
  c8_profile_fallback.1 [⟨"a.tif", some "UD", some "0001", 1, 1⟩]

/-- C9: entries of a strictly smaller category always sort first
(the category is the first tuple component), entries without a group
number receive the sentinel `"zzzzz"` as second component, and the
sentinel sorts after every 4-digit group value (so, categories being
equal, a 4-digit-grouped entry precedes every ungrouped one). -/
theorem c9_sort_key_order :
    (∀ e1 e2 : Entry, category e1.identifier < category e2.identifier →
      keyLt (get_sort_key e1) (get_sort_key e2)) ∧
    (∀ e : Entry, e.groupNum = none → (get_sort_key e).2.1 = "zzzzz") ∧
    (∀ s : String, s.length = 4 → (∀ c ∈ s.data, c.isDigit) → s < "zzzzz") ∧
    (∀ e1 e2 : Entry, category e1.identifier = category e2.identifier →
      (∀ c ∈ (get_sort_key e1).2.1.data, c.isDigit) →
      (get_sort_key e1).2.1.length = 4 → e2.groupNum = none →
      keyLt (get_sort_key e1) (get_sort_key e2)) := by
  have sentinel : ∀ s : String, s.length = 4 → (∀ c ∈ s.data, c.isDigit) →
      s < "zzzzz" := by
    intro s hlen hdig
    obtain ⟨c, cs, hd⟩ : ∃ c cs, s.data = c :: cs := by
      cases h : s.data with
      | nil => simp [String.length, h] at hlen
      | cons a as => exact ⟨a, as, rfl⟩
    have hc : c.isDigit := hdig c (by rw [hd]; exact List.mem_cons_self c cs)
    have hlt : c < 'z' := by
      have h9 : c ≤ '9' := by
        simp [Char.isDigit] at hc
        exact hc.2
      exact lt_of_le_of_lt h9 (by decide)
    rw [String.lt_iff_toList_lt]
    have hdt : s.toList = c :: cs := hd
    have hz : "zzzzz".toList = 'z' :: ['z', 'z', 'z', 'z'] := rfl
    rw [hdt, hz]
    exact List.Lex.rel hlt
  refine ⟨fun e1 e2 h => Or.inl h, fun e h => by simp [get_sort_key, h],
    sentinel, fun e1 e2 hcat hdig hlen h2 => ?_⟩
  refine Or.inr ⟨hcat, Or.inl ?_⟩
  have : (get_sort_key e2).2.1 = "zzzzz" := by simp [get_sort_key, h2]
  rw [this]
  exact sentinel _ hlen hdig

/-- C9 (witness): the sort-key order at concrete entries — a groupable
`UD` entry precedes a `Map` entry, and within a category a 4-digit
group precedes the sentinel of an ungrouped entry. -/
theorem c9_witness :
    keyLt (get_sort_key ⟨"0001 UD.tif", some "UD", some "0001", 1, 1⟩)
      (get_sort_key ⟨"Map Data 1.tif", some "Map", some "0001", 1, 1⟩) ∧
    keyLt (get_sort_key ⟨"0001 UD.tif", some "UD", some "0001", 1, 1⟩)
      (get_sort_key ⟨"x UD.tif", some "UD", none, 1, 1⟩) :=
  ⟨c9_sort_key_order.1 _ _ (by decide),
   c9_sort_key_order.2.2.2
     ⟨"0001 UD.tif", some "UD", some "0001", 1, 1⟩
     ⟨"x UD.tif", some "UD", none, 1, 1⟩ (by decide) (by decide) (by decide) rfl⟩

/-- Ceiling division bound: `n ≤ b * ⌈n / b⌉`. -/
theorem le_mul_cdiv (n b : ℕ) (hb : 0 < b) : n ≤ b * cdiv n b := by
  have hdm := Nat.div_add_mod (n + b - 1) b
  have hmlt : (n + b - 1) % b < b := Nat.mod_lt _ hb
  rw [cdiv]
  generalize hq : (n + b - 1) / b = q at hdm
  generalize hr : (n + b - 1) % b = r at hdm hmlt
  generalize hbq : b * q = m at hdm ⊢
  omega

/-- Ceiling division monotonicity: if `n ≤ b * c` then `⌈n / b⌉ ≤ c`. -/
theorem cdiv_le (n b c : ℕ) (hb : 0 < b) (h : n ≤ b * c) : cdiv n b ≤ c := by
  rw [cdiv]
  rw [Nat.div_le_iff_le_mul_add_pred hb]
  generalize hbc : b * c = m at h
  omega

/-- Concatenating the consecutive batches `l[b*k : b*k+b]` for
`k < m` recovers `l`, provided `l.length ≤ b * m`. -/
theorem join_batches (b : ℕ) (_hb : 0 < b) :
    ∀ (m : ℕ) (l : List α), l.length ≤ b * m →
      ((List.range m).map fun k => (l.drop (b * k)).take b).flatten = l := by
  intro m
  induction m with
  | zero =>
    intro l hl
    simp at hl
    simp [hl]
  | succ m ih =>
    intro l hl
    rw [List.range_succ_eq_map, List.map_cons, List.map_map, List.flatten_cons]
    have hcomp :
        ((fun k => (l.drop (b * k)).take b) ∘ Nat.succ) =
          fun k => ((l.drop b).drop (b * k)).take b := by
      funext k
      simp only [Function.comp]
      rw [List.drop_drop]
      congr 2
      rw [Nat.mul_succ, Nat.add_comm]
    have hl' : l.length ≤ b * m + b := by rw [Nat.mul_succ] at hl; exact hl
    rw [hcomp, ih (l.drop b) (by simp; omega)]
    simp [Nat.mul_zero]

/-- C4: `add_mixed_slide` composes a mixed group into
`max(ceil(other / 2), ceil(spectrum / 3))` output units; unit `k` holds
`other[2k : 2k+2]` on the left and `spectrum[3k : 3k+3]` on the right
(both sides advancing in lockstep, a short batch leaving its side
under-filled with at most 2 and 3 slots); concatenating the left
(resp. right) batches gives back exactly the other (resp. spectrum)
list, so no entry is placed twice; and 5 spectrum plus 1 other entry
produce exactly 2 units, the second with an empty left side and the
remaining 2 spectrum entries on the right. -/
theorem c4_mixed_batching :
    (∀ (α : Type) (spectrum other : List α),
      (mixedUnits spectrum other).length =
        max (cdiv other.length 2) (cdiv spectrum.length 3) ∧
      (∀ k, k < (mixedUnits spectrum other).length →
        (mixedUnits spectrum other)[k]? =
          some ((other.drop (2 * k)).take 2, (spectrum.drop (3 * k)).take 3)) ∧
      (∀ u ∈ mixedUnits spectrum other, u.1.length ≤ 2 ∧ u.2.length ≤ 3) ∧
      ((mixedUnits spectrum other).map Prod.fst).flatten = other ∧
      ((mixedUnits spectrum other).map Prod.snd).flatten = spectrum) ∧
    mixedUnits [1, 2, 3, 4, 5] [9] = [([9], [1, 2, 3]), ([], [4, 5])] := by
  refine ⟨fun α spectrum other => ?_, by decide⟩
  have hlen : (mixedUnits spectrum other).length =
      max (cdiv spectrum.length 3) (cdiv other.length 2) := by
    simp [mixedUnits]
  refine ⟨by rw [hlen, Nat.max_comm], ?_, ?_, ?_, ?_⟩
  · intro k hk
    simp only [mixedUnits, List.length_map, List.length_range] at hk
    simp only [mixedUnits]
    rw [List.getElem?_map, List.getElem?_range hk]
    rfl
  · intro u hu
    simp only [mixedUnits, List.mem_map] at hu
    obtain ⟨k, _, rfl⟩ := hu
    constructor
    · rw [List.length_take]
      exact min_le_left _ _
    · rw [List.length_take]
      exact min_le_left _ _
  · simp only [mixedUnits, List.map_map]
    have : (Prod.fst ∘ fun k =>
        ((other.drop (2 * k)).take 2, (spectrum.drop (3 * k)).take 3)) =
        fun k => (other.drop (2 * k)).take 2 := rfl
    rw [this]
    exact join_batches 2 (by omega) _ other
      (le_trans (le_mul_cdiv other.length 2 (by omega))
        (Nat.mul_le_mul_left 2 (le_max_right _ _)))
  · simp only [mixedUnits, List.map_map]
    have : (Prod.snd ∘ fun k =>
        ((other.drop (2 * k)).take 2, (spectrum.drop (3 * k)).take 3)) =
        fun k => (spectrum.drop (3 * k)).take 3 := rfl
    rw [this]
    exact join_batches 3 (by omega) _ spectrum
      (le_trans (le_mul_cdiv spectrum.length 3 (by omega))
        (Nat.mul_le_mul_left 3 (le_max_left _ _)))

/-- C4 (witness): the batching invariants at the concrete 5 + 1 mixed
group. -/
theorem c4_witness :
    (mixedUnits [1, 2, 3, 4, 5] [9] : List (List ℕ × List ℕ))[1]? =
      some ([], [4, 5]) :=
  (c4_mixed_batching.1 ℕ [1, 2, 3, 4, 5] [9]).2.1 1 (by decide)

/-- The upward scan of `csqrtAux` reaches a value whose square bounds
`n`, given enough fuel. -/
theorem csqrtAux_ge (n : ℕ) :
    ∀ fuel k, n ≤ (k + fuel) * (k + fuel) →
      n ≤ csqrtAux n fuel k * csqrtAux n fuel k := by
  intro fuel
  induction fuel with
  | zero => intro k h; simpa [csqrtAux] using h
  | succ fuel ih =>
    intro k h
    rw [csqrtAux]
    split_ifs with hk
    · exact hk
    · refine ih (k + 1) ?_
      have : k + 1 + fuel = k + (fuel + 1) := by omega
      rw [this]
      exact h

/-- `n ≤ csqrt n * csqrt n`. -/
theorem csqrt_ge (n : ℕ) : n ≤ csqrt n * csqrt n := by
  refine csqrtAux_ge n n 0 ?_
  rcases Nat.eq_zero_or_pos n with h | h
  · simp [h]
  · have : n ≤ n * n := by
      calc n = n * 1 := by ring
      _ ≤ n * n := Nat.mul_le_mul_left n h
    simpa using this

/-- Minimality of the `csqrtAux` scan: every value strictly below the
result has a square strictly below `n`. -/
theorem csqrtAux_min (n : ℕ) :
    ∀ fuel k j, k ≤ j → j < csqrtAux n fuel k → j * j < n := by
  intro fuel
  induction fuel with
  | zero => intro k j hkj hj; rw [csqrtAux] at hj; omega
  | succ fuel ih =>
    intro k j hkj hj
    rw [csqrtAux] at hj
    split_ifs at hj with hk
    · omega
    · rcases Nat.eq_or_lt_of_le hkj with rfl | hlt
      · exact Nat.lt_of_not_le hk
      · exact ih (k + 1) j hlt hj

/-- `j < csqrt n → j * j < n`. -/
theorem csqrt_min (n j : ℕ) (h : j < csqrt n) : j * j < n :=
  csqrtAux_min n n 0 j (Nat.zero_le j) h

/-- The `else` branch of the grid-layout table. -/
theorem grid_layout_big (n : ℕ) (h : 20 < n) :
    calculate_grid_layout n = (cdiv n (csqrt n), csqrt n) := by
  rw [calculate_grid_layout]
  split_ifs <;> first | rfl | omega

/-- C5 (counterexample): the claim says the planned grid strictly
decreases in wasted cells relative to the naive `n × 1` layout for
`n > 4`, but at `n = 5` the plan `(2, 3)` wastes one cell while the
naive `5 × 1` layout wastes none. -/
theorem c5_counterexample :
    ¬ ((calculate_grid_layout 5).1 * (calculate_grid_layout 5).2 - 5 <
        5 * 1 - 5) := by
  decide

/-- C5 (amended): `calculate_grid_layout` equals the fixed sizing table
(0→(0,0), 1→(1,1), 2→(1,2), 3–4→(2,2), 5–6→(2,3), 7–9→(3,3),
10–12→(3,4), 13–16→(4,4), 17–20→(4,5), and for n > 20
cols = ceil(sqrt n), rows = ceil(n / cols)); for every n > 0 the grid
satisfies rows·cols ≥ n; and for n > 4 the grid is strictly more
compact than the naive n×1 layout (max(rows, cols) < n) — it does not
waste fewer cells than the naive layout, which wastes none.  In
particular plan_grid(7) = (3,3) and plan_grid(21) = (5,5). -/
theorem c5_grid_layout :
    calculate_grid_layout 0 = (0, 0) ∧
    calculate_grid_layout 1 = (1, 1) ∧
    calculate_grid_layout 2 = (1, 2) ∧
    (∀ n, 3 ≤ n → n ≤ 4 → calculate_grid_layout n = (2, 2)) ∧
    (∀ n, 5 ≤ n → n ≤ 6 → calculate_grid_layout n = (2, 3)) ∧
    (∀ n, 7 ≤ n → n ≤ 9 → calculate_grid_layout n = (3, 3)) ∧
    (∀ n, 10 ≤ n → n ≤ 12 → calculate_grid_layout n = (3, 4)) ∧
    (∀ n, 13 ≤ n → n ≤ 16 → calculate_grid_layout n = (4, 4)) ∧
    (∀ n, 17 ≤ n → n ≤ 20 → calculate_grid_layout n = (4, 5)) ∧
    (∀ n, 20 < n → calculate_grid_layout n = (cdiv n (csqrt n), csqrt n)) ∧
    (∀ n, 0 < n →
      n ≤ (calculate_grid_layout n).1 * (calculate_grid_layout n).2) ∧
    (∀ n, 4 < n →
      max (calculate_grid_layout n).1 (calculate_grid_layout n).2 < n) ∧
    calculate_grid_layout 7 = (3, 3) ∧
    calculate_grid_layout 21 = (5, 5) := by
  have hc1 : ∀ n, 20 < n → 5 ≤ csqrt n := by
    intro n hn
    by_contra hlt
    have h4 : csqrt n ≤ 4 := by omega
    have := csqrt_ge n
    have : n ≤ 16 := le_trans this (by nlinarith)
    omega
  refine ⟨by decide, by decide, by decide,
    fun n h1 h2 => by rw [calculate_grid_layout]; split_ifs <;> first | rfl | omega,
    fun n h1 h2 => by rw [calculate_grid_layout]; split_ifs <;> first | rfl | omega,
    fun n h1 h2 => by rw [calculate_grid_layout]; split_ifs <;> first | rfl | omega,
    fun n h1 h2 => by rw [calculate_grid_layout]; split_ifs <;> first | rfl | omega,
    fun n h1 h2 => by rw [calculate_grid_layout]; split_ifs <;> first | rfl | omega,
    fun n h1 h2 => by rw [calculate_grid_layout]; split_ifs <;> first | rfl | omega,
    grid_layout_big, ?_, ?_, by decide, by decide⟩
  · intro n hn
    by_cases h20 : n ≤ 20
    · interval_cases n <;> decide
    · rw [grid_layout_big n (by omega)]
      have hcpos : 0 < csqrt n := by
        have := hc1 n (by omega)
        omega
      calc n ≤ csqrt n * cdiv n (csqrt n) := le_mul_cdiv n (csqrt n) hcpos
      _ = cdiv n (csqrt n) * csqrt n := Nat.mul_comm _ _
  · intro n hn
    by_cases h20 : n ≤ 20
    · interval_cases n <;> decide
    · rw [grid_layout_big n (by omega)]
      have h5 : 5 ≤ csqrt n := hc1 n (by omega)
      have hmin : (csqrt n - 1) * (csqrt n - 1) < n :=
        csqrt_min n (csqrt n - 1) (by omega)
      have hmul : 4 * (csqrt n - 1) ≤ (csqrt n - 1) * (csqrt n - 1) :=
        Nat.mul_le_mul_right (csqrt n - 1) (by omega)
      have hcn : csqrt n < n := by omega
      have hrows : cdiv n (csqrt n) ≤ csqrt n :=
        cdiv_le n (csqrt n) (csqrt n) (by omega) (csqrt_ge n)
      calc max (cdiv n (csqrt n)) (csqrt n) = csqrt n := max_eq_right hrows
    _ < n := hcn

/-- C5 (witness): the amended statement at concrete sizes. -/
theorem c5_witness :
    calculate_grid_layout 12 = (3, 4) ∧
    12 ≤ (calculate_grid_layout 12).1 * (calculate_grid_layout 12).2 ∧
    max (calculate_grid_layout 12).1 (calculate_grid_layout 12).2 < 12 :=
  ⟨c5_grid_layout.2.2.2.2.2.2.1 12 (by decide) (by decide),
   c5_grid_layout.2.2.2.2.2.2.2.2.2.2.1 12 (by decide),
   c5_grid_layout.2.2.2.2.2.2.2.2.2.2.2.1 12 (by decide)⟩

/-- `digitChar` and `digitVal` are inverse on single digits. -/
theorem digitVal_digitChar (m : ℕ) (h : m < 10) :
    digitVal (digitChar m) = m := by
  interval_cases m <;> decide

/-- `digitChar` produces digit characters. -/
theorem isDigitC_digitChar (m : ℕ) (h : m < 10) :
    isDigitC (digitChar m) = true := by
  interval_cases m <;> decide

/-- The value of a digit character is at most 9. -/
theorem digitVal_le_nine (c : Char) (h : isDigitC c) : digitVal c ≤ 9 := by
  simp [isDigitC, Char.isDigit] at h
  obtain ⟨h0, h9⟩ := h
  simp [Char.le_def, UInt32.le_def] at h9
  have h' : c.toNat ≤ 57 := by
    simp [Char.toNat]
    exact_mod_cast h9
  simp [digitVal]
  omega

/-- Appending one character multiplies the value by 10 and adds the
digit. -/
theorem digitsToNat_append_single (xs : List Char) (c : Char) :
    digitsToNat (xs ++ [c]) = 10 * digitsToNat xs + digitVal c := by
  induction xs with
  | nil => simp [digitsToNat]
  | cons a as ih =>
    simp only [List.cons_append, digitsToNat, ih, List.append_eq,
      List.length_append, List.length_cons, List.length_nil]
    ring

/-- Leading zeros do not change the parsed value. -/
theorem digitsToNat_replicate_zero (k : ℕ) (ds : List Char) :
    digitsToNat (List.replicate k '0' ++ ds) = digitsToNat ds := by
  induction k with
  | zero => simp
  | succ k ih =>
    have hz : digitVal '0' = 0 := by decide
    simp only [List.replicate_succ, List.cons_append, digitsToNat, ih, hz,
      List.append_eq, zero_mul, zero_add]

/-- With sufficient fuel, `natReprAux` produces a nonempty digit string
that parses back to `n`. -/
theorem natReprAux_spec (fuel : ℕ) :
    ∀ n, n < fuel →
      digitsToNat (natReprAux fuel n) = n ∧
      (∀ c ∈ natReprAux fuel n, isDigitC c) ∧ natReprAux fuel n ≠ [] := by
  induction fuel with
  | zero => intro n h; omega
  | succ fuel ih =>
    intro n h
    rw [natReprAux]
    split_ifs with h10
    · refine ⟨?_, ?_, by simp⟩
      · simp [digitsToNat, digitVal_digitChar n h10]
      · intro c hc
        simp at hc
        subst hc
        exact isDigitC_digitChar n h10
    · have hd : n / 10 < fuel := by
        have := Nat.div_lt_self (by omega : 0 < n) (by omega : 1 < 10)
        omega
      obtain ⟨ih1, ih2, ih3⟩ := ih (n / 10) hd
      have hmod : n % 10 < 10 := Nat.mod_lt n (by omega)
      refine ⟨?_, ?_, by simp⟩
      · rw [digitsToNat_append_single, ih1, digitVal_digitChar _ hmod]
        omega
      · intro c hc
        rw [List.mem_append] at hc
        rcases hc with hc | hc
        · exact ih2 c hc
        · simp at hc
          subst hc
          exact isDigitC_digitChar _ hmod

/-- With sufficient fuel, `n < 10^k` yields at most `k` digits. -/
theorem natReprAux_len (fuel : ℕ) :
    ∀ n k, n < fuel → n < 10 ^ k → 0 < k →
      (natReprAux fuel n).length ≤ k := by
  induction fuel with
  | zero => intro n k h; omega
  | succ fuel ih =>
    intro n k h hpow hk
    rw [natReprAux]
    split_ifs with h10
    · simpa using hk
    · have hk2 : 2 ≤ k := by
        by_contra hlt
        have hk1 : k = 1 := by omega
        rw [hk1, pow_one] at hpow
        omega
      have hfuel : n / 10 < fuel := by
        have := Nat.div_lt_self (by omega : 0 < n) (by omega : 1 < 10)
        omega
      have hsplit : 10 ^ k = 10 ^ (k - 1) * 10 := by
        rw [← pow_succ]
        congr 1
        omega
      have hdiv : n / 10 < 10 ^ (k - 1) := by
        rw [Nat.div_lt_iff_lt_mul (by omega : 0 < 10), ← hsplit]
        exact hpow
      have := ih (n / 10) (k - 1) hfuel hdiv (by omega)
      simp only [List.length_append, List.length_singleton]
      omega

/-- A digit string parses below `10 ^ length`. -/
theorem digitsToNat_lt (ds : List Char) (h : ∀ c ∈ ds, isDigitC c) :
    digitsToNat ds < 10 ^ ds.length := by
  induction ds with
  | nil => simp [digitsToNat]
  | cons c cs ih =>
    have hc : digitVal c ≤ 9 :=
      digitVal_le_nine c (h c (List.mem_cons_self c cs))
    have ihh := ih fun x hx => h x (List.mem_cons_of_mem c hx)
    simp only [digitsToNat, List.length_cons, pow_succ]
    have h1 : digitVal c * 10 ^ cs.length ≤ 9 * 10 ^ cs.length :=
      Nat.mul_le_mul_right _ hc
    omega

/-- `natRepr` parses back to its argument. -/
theorem natRepr_parse (n : ℕ) : digitsToNat (natRepr n) = n :=
  (natReprAux_spec (n + 1) n (Nat.lt_succ_self n)).1

/-- `natRepr` consists of digit characters. -/
theorem natRepr_digits (n : ℕ) : ∀ c ∈ natRepr n, isDigitC c :=
  (natReprAux_spec (n + 1) n (Nat.lt_succ_self n)).2.1

/-- `natRepr` is nonempty. -/
theorem natRepr_ne_nil (n : ℕ) : natRepr n ≠ [] :=
  (natReprAux_spec (n + 1) n (Nat.lt_succ_self n)).2.2

/-- `natRepr n` has at most `k` digits when `n < 10^k`. -/
theorem natRepr_len_le (n k : ℕ) (h : n < 10 ^ k) (hk : 0 < k) :
    (natRepr n).length ≤ k :=
  natReprAux_len (n + 1) n k (Nat.lt_succ_self n) h hk

/-- The re-derived group string `zfill4 (str n)` of an integer below
10000 is a 4-digit string parsing back to `n`. -/
theorem zfill4_rederive (n : ℕ) (h : n < 10000) :
    pyIsDigit (zfill4 (natRepr n)).data ∧
    (zfill4 (natRepr n)).data.length = 4 ∧
    digitsToNat (zfill4 (natRepr n)).data = n := by
  have hlen4 : (natRepr n).length ≤ 4 :=
    natRepr_len_le n 4 (by norm_num; exact h) (by omega)
  have hpos : 0 < (natRepr n).length := List.length_pos.mpr (natRepr_ne_nil n)
  have hdata : (zfill4 (natRepr n)).data =
      List.replicate (4 - (natRepr n).length) '0' ++ natRepr n := rfl
  refine ⟨?_, ?_, ?_⟩
  · rw [hdata, pyIsDigit, Bool.and_eq_true]
    constructor
    · rw [Bool.not_eq_true']
      rw [List.isEmpty_eq_false_iff_exists_mem]
      obtain ⟨c, cs, hcons⟩ : ∃ c cs, natRepr n = c :: cs := by
        cases hh : natRepr n with
        | nil => exact absurd hh (natRepr_ne_nil n)
        | cons c cs => exact ⟨c, cs, rfl⟩
      exact ⟨c, by rw [hcons]; simp⟩
    · rw [List.all_eq_true]
      intro c hc
      rw [List.mem_append] at hc
      rcases hc with hc | hc
      · rw [List.eq_of_mem_replicate hc]
        decide
      · exact natRepr_digits n c hc
  · rw [hdata]
    rw [List.length_append, List.length_replicate]
    omega
  · rw [hdata, digitsToNat_replicate_zero, natRepr_parse]

/-- C3: `format_group_label` turns a 4-digit group number into
`"SPEC" ++ str(int(g))` for Spectrum/Spectra (no zero padding in the
output), `"MAP" ++ str(int(g))` for Map/Maps/Electron Image, leaves
the 4-digit string unchanged for every other identifier, returns any
non-4-digit group label verbatim, and re-deriving the 4-digit group
from the integer of a formatted SPEC/MAP label and formatting again
reproduces the same label; in particular
`format("0002", "Spectrum") = "SPEC2"` and
`format("0002", "PDBSE") = "0002"`. -/
theorem c3_format_group_label :
    (∀ (g : String) (id : Option String), pyIsDigit g.data →
      g.data.length = 4 → id = some "Spectrum" ∨ id = some "Spectra" →
      format_group_label (some g) id =
        "SPEC" ++ String.mk (natRepr (digitsToNat g.data))) ∧
    (∀ (g : String) (id : Option String), pyIsDigit g.data →
      g.data.length = 4 →
      id = some "Map" ∨ id = some "Maps" ∨ id = some "Electron Image" →
      format_group_label (some g) id =
        "MAP" ++ String.mk (natRepr (digitsToNat g.data))) ∧
    (∀ (g : String) (id : Option String), pyIsDigit g.data →
      g.data.length = 4 →
      ¬(id = some "Spectrum" ∨ id = some "Spectra") →
      ¬(id = some "Map" ∨ id = some "Maps" ∨ id = some "Electron Image") →
      format_group_label (some g) id = g) ∧
    (∀ (g : String) (id : Option String), g ≠ "" →
      ¬(pyIsDigit g.data = true ∧ g.data.length = 4) →
      format_group_label (some g) id = g) ∧
    (∀ (g : String) (id : Option String), pyIsDigit g.data →
      g.data.length = 4 →
      (id = some "Spectrum" ∨ id = some "Spectra") ∨
        (id = some "Map" ∨ id = some "Maps" ∨ id = some "Electron Image") →
      format_group_label (some (zfill4 (natRepr (digitsToNat g.data)))) id =
        format_group_label (some g) id) ∧
    format_group_label (some "0002") (some "Spectrum") = "SPEC2" ∧
    format_group_label (some "0002") (some "PDBSE") = "0002" := by
  have hne : ∀ g : String, g.data.length = 4 → ¬ g = "" := by
    intro g hlen heq
    rw [heq] at hlen
    simp at hlen
  have hcond : ∀ g : String, pyIsDigit g.data → g.data.length = 4 →
      (pyIsDigit g.data && g.data.length == 4) = true := by
    intro g h1 h2
    rw [h1, h2]
    rfl
  have hspec : ∀ (g : String) (id : Option String), pyIsDigit g.data →
      g.data.length = 4 → id = some "Spectrum" ∨ id = some "Spectra" →
      format_group_label (some g) id =
        "SPEC" ++ String.mk (natRepr (digitsToNat g.data)) := by
    intro g id h1 h2 hid
    rw [format_group_label, if_neg (hne g h2), if_pos (hcond g h1 h2),
      if_pos hid]
  have hmap : ∀ (g : String) (id : Option String), pyIsDigit g.data →
      g.data.length = 4 →
      id = some "Map" ∨ id = some "Maps" ∨ id = some "Electron Image" →
      format_group_label (some g) id =
        "MAP" ++ String.mk (natRepr (digitsToNat g.data)) := by
    intro g id h1 h2 hid
    have hns : ¬ (id = some "Spectrum" ∨ id = some "Spectra") := by
      rcases hid with rfl | rfl | rfl <;> simp
    rw [format_group_label, if_neg (hne g h2), if_pos (hcond g h1 h2),
      if_neg hns, if_pos hid]
  -- properties of the re-derived 4-digit group string
  have hredev : ∀ g : String, pyIsDigit g.data → g.data.length = 4 →
      pyIsDigit (zfill4 (natRepr (digitsToNat g.data))).data ∧
      (zfill4 (natRepr (digitsToNat g.data))).data.length = 4 ∧
      digitsToNat (zfill4 (natRepr (digitsToNat g.data))).data =
        digitsToNat g.data := by
    intro g h1 h2
    have hdigits : ∀ c ∈ g.data, isDigitC c := by
      have := (Bool.and_eq_true _ _).mp h1
      intro c hc
      exact (List.all_eq_true.mp this.2) c hc
    have hn : digitsToNat g.data < 10000 := by
      have := digitsToNat_lt g.data hdigits
      rw [h2] at this
      norm_num at this
      exact this
    exact zfill4_rederive (digitsToNat g.data) hn
  refine ⟨hspec, hmap, ?_, ?_, ?_, by decide, by decide⟩
  · intro g id h1 h2 hn1 hn2
    rw [format_group_label, if_neg (hne g h2), if_pos (hcond g h1 h2),
      if_neg hn1, if_neg hn2]
  · intro g id hg hnot
    rw [format_group_label, if_neg hg, if_neg ?_]
    intro hb
    rw [Bool.and_eq_true] at hb
    exact hnot ⟨hb.1, by simpa using hb.2⟩
  · intro g id h1 h2 hid
    obtain ⟨hz1, hz2, hz3⟩ := hredev g h1 h2
    rcases hid with hid | hid
    · rw [hspec _ _ hz1 hz2 hid, hspec _ _ h1 h2 hid, hz3]
    · rw [hmap _ _ hz1 hz2 hid, hmap _ _ h1 h2 hid, hz3]

/-- C3 (witness): the formatter and the SPEC round-trip at the concrete
group `"0002"`. -/
theorem c3_witness :
    format_group_label (some (zfill4 (natRepr (digitsToNat
        (String.data "0002"))))) (some "Spectrum") =
      format_group_label (some "0002") (some "Spectrum") :=
  c3_format_group_label.2.2.2.2.1 "0002" (some "Spectrum") (by decide)
    (by decide) (Or.inl (Or.inl rfl))

/-- C1: when the identifier search finds a groupable identifier in a
filename, the extraction tries the group-number patterns in order of
preference — (a) a 4-digit number immediately preceding the identifier
followed by optional separator/number noise (`numPatternA`), (b) any
digit run preceding the identifier, zero-padded to 4 digits
(`numPatternB`), (c) any digit run immediately following the identifier
(`numPatternC`) — and when none matches the identifier is still
returned with a null group number; in particular
`extract("0001 PDBSE.tif") = ("0001", "PDBSE", "0001 PDBSE")`. -/
theorem c1_groupable_extraction :
    (∀ (f : String) (id : String) (pos : ℕ),
      findFirstIdentifier (stripExt f.data) = some (id, pos) →
      id ∈ GROUPABLE_IDENTIFIERS →
      ((∀ g full, numPatternA id.data (stripExt f.data) = some (g, full) →
        extract_identifier_and_number f =
          (some (String.mk g), some id, some (String.mk full))) ∧
       (numPatternA id.data (stripExt f.data) = none →
        ∀ g full, numPatternB id.data (stripExt f.data) = some (g, full) →
        extract_identifier_and_number f =
          (some (zfill4 g), some id, some (String.mk full))) ∧
       (numPatternA id.data (stripExt f.data) = none →
        numPatternB id.data (stripExt f.data) = none →
        ∀ g full, numPatternC id.data (stripExt f.data) = some (g, full) →
        extract_identifier_and_number f =
          (some (zfill4 g), some id, some (String.mk full))) ∧
       (numPatternA id.data (stripExt f.data) = none →
        numPatternB id.data (stripExt f.data) = none →
        numPatternC id.data (stripExt f.data) = none →
        extract_identifier_and_number f =
          (none, some id,
           some (foundText (stripExt f.data) pos id.data.length))))) ∧
    extract_identifier_and_number "0001 PDBSE.tif" =
      (some "0001", some "PDBSE", some "0001 PDBSE") := by
  refine ⟨?_, by decide⟩
  intro f id pos hfind hmem
  refine ⟨fun g full hA => ?_, fun hA g full hB => ?_,
    fun hA hB g full hC => ?_, fun hA hB hC => ?_⟩
  · simp only [extract_identifier_and_number, hfind]
    rw [if_pos hmem, hA]
  · simp only [extract_identifier_and_number, hfind]
    rw [if_pos hmem, hA, hB]
  · simp only [extract_identifier_and_number, hfind]
    rw [if_pos hmem, hA, hB, hC]
  · simp only [extract_identifier_and_number, hfind]
    rw [if_pos hmem, hA, hB, hC]

/-- C1 (witness): the groupable cascade applied to the concrete
filename `"0001 PDBSE.tif"`, whose matched identifier is `PDBSE` and
whose first pattern match is `("0001", "0001 PDBSE")`. -/
theorem c1_witness :
    extract_identifier_and_number "0001 PDBSE.tif" =
      (some "0001", some "PDBSE", some "0001 PDBSE") :=
  (c1_groupable_extraction.1 "0001 PDBSE.tif" "PDBSE" 5 (by decide)
      (by decide)).1 "0001".data "0001 PDBSE".data (by decide)

/-- C2: when the identifier search finds a Map-like identifier
(Map/Maps/Electron Image), the extraction takes the group number from a
digit run after the identifier, optionally after intervening words and
ignoring a trailing `_N` suffix (`afterSearch`), falling back to the
last digit run before end-of-string (`fallbackSearch`); for a
Spectrum-like identifier it takes the last digit run at end-of-string,
ignoring a trailing `_N` suffix (`trailingSearch`); numbers are
zero-padded to 4 digits and when no number is found the identifier is
returned with a null group number; in particular
`extract("Spectrum 5.tiff") = ("0005", "Spectrum", "Spectrum")` and
`extract("Co K_alpha_1 Map Data 2.tif") = ("0002", "Map", "Map")`. -/
theorem c2_nongroupable_extraction :
    (∀ (f : String) (id : String) (pos : ℕ),
      findFirstIdentifier (stripExt f.data) = some (id, pos) →
      id ∈ MAP_LIKE_IDENTIFIERS →
      ((∀ g, afterSearch id.data (stripExt f.data) = some g →
        extract_identifier_and_number f =
          (some (zfill4 g), some id,
           some (foundText (stripExt f.data) pos id.data.length))) ∧
       (afterSearch id.data (stripExt f.data) = none →
        ∀ g, fallbackSearch (stripExt f.data) = some g →
        extract_identifier_and_number f =
          (some (zfill4 g), some id,
           some (foundText (stripExt f.data) pos id.data.length))) ∧
       (afterSearch id.data (stripExt f.data) = none →
        fallbackSearch (stripExt f.data) = none →
        extract_identifier_and_number f =
          (none, some id,
           some (foundText (stripExt f.data) pos id.data.length))))) ∧
    (∀ (f : String) (id : String) (pos : ℕ),
      findFirstIdentifier (stripExt f.data) = some (id, pos) →
      id ∈ SPECTRUM_IDENTIFIERS →
      ((∀ g, trailingSearch (stripExt f.data) = some g →
        extract_identifier_and_number f =
          (some (zfill4 g), some id,
           some (foundText (stripExt f.data) pos id.data.length))) ∧
       (trailingSearch (stripExt f.data) = none →
        extract_identifier_and_number f =
          (none, some id,
           some (foundText (stripExt f.data) pos id.data.length))))) ∧
    extract_identifier_and_number "Spectrum 5.tiff" =
      (some "0005", some "Spectrum", some "Spectrum") ∧
    extract_identifier_and_number "Co K_alpha_1 Map Data 2.tif" =
      (some "0002", some "Map", some "Map") := by
  refine ⟨?_, ?_, by decide, by decide⟩
  · intro f id pos hfind hmem
    have hng : id ∉ GROUPABLE_IDENTIFIERS := by
      have : id = "Map" ∨ id = "Maps" ∨ id = "Electron Image" := by
        simpa [MAP_LIKE_IDENTIFIERS] using hmem
      rcases this with rfl | rfl | rfl <;> decide
    refine ⟨fun g hA => ?_, fun hA g hF => ?_, fun hA hF => ?_⟩
    · simp only [extract_identifier_and_number, hfind]
      rw [if_neg hng, if_pos hmem, hA]
    · simp only [extract_identifier_and_number, hfind]
      rw [if_neg hng, if_pos hmem, hA, hF]
    · simp only [extract_identifier_and_number, hfind]
      rw [if_neg hng, if_pos hmem, hA, hF]
  · intro f id pos hfind hmem
    have hids : id = "Spectrum" ∨ id = "Spectra" := by
      simpa [SPECTRUM_IDENTIFIERS] using hmem
    have hng : id ∉ GROUPABLE_IDENTIFIERS := by
      rcases hids with rfl | rfl <;> decide
    have hnm : id ∉ MAP_LIKE_IDENTIFIERS := by
      rcases hids with rfl | rfl <;> decide
    refine ⟨fun g hT => ?_, fun hT => ?_⟩
    · simp only [extract_identifier_and_number, hfind]
      rw [if_neg hng, if_neg hnm, if_pos hmem, hT]
    · simp only [extract_identifier_and_number, hfind]
      rw [if_neg hng, if_neg hnm, if_pos hmem, hT]

/-- C2 (witness): the non-groupable extraction applied to the concrete
filenames `"Spectrum 5.tiff"` (trailing-number rule) and
`"Co K_alpha_1 Map Data 2.tif"` (after-identifier rule). -/
theorem c2_witness :
    extract_identifier_and_number "Spectrum 5.tiff" =
      (some "0005", some "Spectrum", some "Spectrum") ∧
    extract_identifier_and_number "Co K_alpha_1 Map Data 2.tif" =
      (some "0002", some "Map", some "Map") :=
  ⟨(c2_nongroupable_extraction.2.1 "Spectrum 5.tiff" "Spectrum" 0 (by decide)
      (by decide)).1 "5".data (by decide),
   (c2_nongroupable_extraction.1 "Co K_alpha_1 Map Data 2.tif" "Map" 13
      (by decide) (by decide)).1 "2".data (by decide)⟩

end PPTGen
